import Mathlib

/-!
Verification of the event-lifecycle and RSVP-reconciliation logic of the
eventa_app repository (an event-discovery and RSVP web application).

The definitions below are a shallow embedding of the application code:

* RSVP rows, counts and the `handleRSVP` click handler are translated from
  `app/components/events/RSVPButton.tsx` together with the queries of
  `app/events/[id]/page.tsx` that compute the props (`currentRSVP`,
  `currentGoingCount`) the handler closes over.
* Event rows and the moderation / cancellation handlers are translated from
  `app/components/admin/ApproveRejectButtons.tsx`,
  `app/components/admin/CancellationApprovalButtons.tsx`,
  `app/dashboard/events/[id]/edit/page.tsx` (edit + request cancellation)
  and `app/test-connection/page.tsx` (create).
* The guard of each operation is the condition under which the UI actually
  renders the corresponding button / page, taken from `app/admin/page.tsx`,
  `app/events/[id]/page.tsx` and the dashboard pages.

Sequential semantics: each call is modelled as a fresh page render (the
props are recomputed from the store by the page queries) followed by one
click.  This matches the single-threaded-per-request model; the known
concurrent capacity race is out of scope of the claims proved here.
-/

namespace Eventa

/-- RSVP type, column `rsvp_type` of the `rsvps` table: `interested | going`. -/
inductive RsvpType
  | interested
  | going
deriving DecidableEq, Repr

/-- RSVP status, column `status` of the `rsvps` table: `active | cancelled`. -/
inductive RsvpStatus
  | active
  | cancelled
deriving DecidableEq, Repr

/-- One row of the `rsvps` table (the columns the RSVP logic touches).
Opaque ids are modelled as naturals. -/
structure Rsvp where
  id : Nat
  user_id : Nat
  event_id : Nat
  rsvp_type : RsvpType
  status : RsvpStatus
deriving DecidableEq, Repr

/-- The `rsvps` table, plus the id the store would assign to the next
inserted row. -/
structure RsvpDB where
  rows : List Rsvp
  nextId : Nat
deriving DecidableEq, Repr

def emptyRsvpDB : RsvpDB := ⟨[], 0⟩

/-- Filter of the query
`.eq("user_id", uid).eq("event_id", eid).eq("status", "active")`
used both by the event detail page and by `handleRSVP`. -/
def activeFor (uid eid : Nat) (r : Rsvp) : Bool :=
  r.user_id == uid && r.event_id == eid && r.status == RsvpStatus.active

/-- The user's active RSVP rows for one event (result set of the query above). -/
def activeRows (db : RsvpDB) (uid eid : Nat) : List Rsvp :=
  db.rows.filter (activeFor uid eid)

/-- Filter of the `going` count query of `app/events/[id]/page.tsx`
(lines 67-72): `.eq("event_id", eid).eq("rsvp_type", "going").eq("status", "active")`. -/
def goingFor (eid : Nat) (r : Rsvp) : Bool :=
  r.event_id == eid && r.rsvp_type == RsvpType.going && r.status == RsvpStatus.active

/-- Filter of the `interested` count query (same page, lines 60-65). -/
def interestedFor (eid : Nat) (r : Rsvp) : Bool :=
  r.event_id == eid && r.rsvp_type == RsvpType.interested && r.status == RsvpStatus.active

/-- `going_count`: number of active `going` RSVPs of an event ("derived
aggregate", computed on read with a `count: "exact"` query). -/
def goingCount (db : RsvpDB) (eid : Nat) : Nat :=
  (db.rows.filter (goingFor eid)).length

/-- `interested_count`: number of active `interested` RSVPs of an event. -/
def interestedCount (db : RsvpDB) (eid : Nat) : Nat :=
  (db.rows.filter (interestedFor eid)).length

/-- PostgREST `.single()`: returns the row when the result set has exactly
one row, `none` otherwise (both the empty and the multi-row case surface as
error `PGRST116`, which the callers treat as "no row"). -/
def singleRow (l : List Rsvp) : Option Rsvp :=
  match l with
  | [r] => some r
  | _ => none

/-- The `currentRSVP` prop computed by `app/events/[id]/page.tsx`
(lines 80-97): the `rsvp_type` of the user's single active RSVP row. -/
def pageCurrentRSVP (db : RsvpDB) (uid eid : Nat) : Option RsvpType :=
  (singleRow (activeRows db uid eid)).map (fun r => r.rsvp_type)

/-- `capacity !== null && currentGoingCount >= capacity`
(`RSVPButton.tsx` lines 176-180). -/
def capacityFull (capacity : Option Int) (currentGoingCount : Nat) : Bool :=
  match capacity with
  | none => false
  | some c => (currentGoingCount : Int) ≥ c

/-- Outcome of one `handleRSVP` call, distinguished by which toast /
early-return the handler hits. -/
inductive RsvpResult
  | unauthenticated
  | capacityExceeded
  | removed
  | changed
  | created
deriving DecidableEq, Repr

/-- The toggle-off write of `handleRSVP` (`RSVPButton.tsx` lines 189-194):
`update({ status: "cancelled" }).eq("user_id", uid).eq("event_id", eid)` —
note the filter has no `status` clause, so it hits every row of the pair. -/
def cancelPair (uid eid : Nat) (r : Rsvp) : Rsvp :=
  if r.user_id == uid && r.event_id == eid then
    { r with status := RsvpStatus.cancelled }
  else r

/-- The type-change write of `handleRSVP` (lines 217-224):
`update({ rsvp_type: type }).eq("id", existingRSVP.id)`. -/
def setTypeById (rid : Nat) (t : RsvpType) (r : Rsvp) : Rsvp :=
  if r.id == rid then { r with rsvp_type := t } else r

/-- `setRSVP`: the `handleRSVP` click handler of `RSVPButton.tsx`
(lines 158-254), with the component props (`currentRSVP` state, the
`currentGoingCount` prop) recomputed from the store by the detail-page
queries, which is the sequential (fresh render per call) semantics.

Order of the handler, faithful to the source:
1. auth check;
2. capacity check: `type === "going" && capacity !== null &&
   currentGoingCount >= capacity` — rejected with no write (this check has
   no exemption for a user whose current RSVP is already `going`);
3. toggle-off when the clicked type equals the current RSVP type;
4. otherwise fetch the single active row — update its type in place if it
   exists, insert a fresh active row if not. -/
def handleRSVP (db : RsvpDB) (user : Option Nat) (eventId : Nat)
    (capacity : Option Int) (t : RsvpType) : RsvpResult × RsvpDB :=
  match user with
  | none => (RsvpResult.unauthenticated, db)
  | some uid =>
    let currentGoingCount := goingCount db eventId
    let rsvpType : Option RsvpType := pageCurrentRSVP db uid eventId
    if t == RsvpType.going && capacityFull capacity currentGoingCount then
      (RsvpResult.capacityExceeded, db)
    else if rsvpType == some t then
      (RsvpResult.removed,
        { db with rows := db.rows.map (cancelPair uid eventId) })
    else
      match singleRow (activeRows db uid eventId) with
      | some existing =>
        (RsvpResult.changed,
          { db with rows := db.rows.map (setTypeById existing.id t) })
      | none =>
        (RsvpResult.created,
          { rows := db.rows ++ [⟨db.nextId, uid, eventId, t, RsvpStatus.active⟩],
            nextId := db.nextId + 1 })

/-- One sequential RSVP click: which user clicks which button. -/
structure RsvpCall where
  user : Nat
  rtype : RsvpType
deriving DecidableEq, Repr

/-- Run a sequence of sequential authenticated `setRSVP` calls against one
event (fresh page render before each click). -/
def runCalls (db : RsvpDB) (eid : Nat) (capacity : Option Int) :
    List RsvpCall → RsvpDB
  | [] => db
  | c :: cs =>
    runCalls (handleRSVP db (some c.user) eid capacity c.rtype).2 eid capacity cs

/-- Invariant: at most one active RSVP row per (user, event) pair. -/
def atMostOneActive (db : RsvpDB) : Prop :=
  ∀ uid eid, (activeRows db uid eid).length ≤ 1

/-! ### Pointwise facts about the row transformers -/

theorem activeFor_cancelPair_self (u e : Nat) (r : Rsvp) :
    activeFor u e (cancelPair u e r) = false := by
  cases hu : r.user_id == u <;> cases he : r.event_id == e <;>
    simp [activeFor, cancelPair, hu, he]

theorem cancelPair_keep (u e u' e' : Nat) (h : u' ≠ u ∨ e' ≠ e) (r : Rsvp) :
    activeFor u' e' (cancelPair u e r) = activeFor u' e' r ∧
      (activeFor u' e' r = true → cancelPair u e r = r) := by
  by_cases hu : r.user_id = u <;> by_cases he : r.event_id = e <;>
    by_cases hu' : r.user_id = u' <;> by_cases he' : r.event_id = e' <;>
      simp_all [activeFor, cancelPair, beq_eq_decide]

theorem activeFor_setTypeById (rid : Nat) (t : RsvpType) (u' e' : Nat) (r : Rsvp) :
    activeFor u' e' (setTypeById rid t r) = activeFor u' e' r := by
  cases h : r.id == rid <;> simp [setTypeById, activeFor, h]

/-! ### How each write affects the active-row query -/

theorem filter_map_cancelPair_self (u e : Nat) (l : List Rsvp) :
    (l.map (cancelPair u e)).filter (activeFor u e) = [] := by
  induction l with
  | nil => rfl
  | cons r rs ih =>
    simp only [List.map_cons, List.filter_cons, activeFor_cancelPair_self]
    exact ih

theorem filter_map_cancelPair_other (u e u' e' : Nat) (h : u' ≠ u ∨ e' ≠ e)
    (l : List Rsvp) :
    (l.map (cancelPair u e)).filter (activeFor u' e') = l.filter (activeFor u' e') := by
  induction l with
  | nil => rfl
  | cons r rs ih =>
    obtain ⟨h1, h2⟩ := cancelPair_keep u e u' e' h r
    cases hr : activeFor u' e' r with
    | false =>
      simp only [List.map_cons, List.filter_cons, h1, hr]
      exact ih
    | true =>
      simp only [List.map_cons, List.filter_cons, h1, hr, h2 hr]
      rw [ih]

theorem filter_map_setTypeById (rid : Nat) (t : RsvpType) (u' e' : Nat)
    (l : List Rsvp) :
    (l.map (setTypeById rid t)).filter (activeFor u' e')
      = (l.filter (activeFor u' e')).map (setTypeById rid t) := by
  induction l with
  | nil => rfl
  | cons r rs ih =>
    cases hr : activeFor u' e' r with
    | false =>
      simp only [List.map_cons, List.filter_cons, activeFor_setTypeById, hr]
      exact ih
    | true =>
      simp only [List.map_cons, List.filter_cons, activeFor_setTypeById, hr]
      simp [ih]

theorem filter_append_single (p : Rsvp → Bool) (l : List Rsvp) (r : Rsvp) :
    (l ++ [r]).filter p = l.filter p ++ (if p r then [r] else []) := by
  rw [List.filter_append]
  cases h : p r <;> simp [h]

/-! ### Effect of the toggle-off write on the going / interested counts -/

theorem goingFor_cancelPair (u e e' : Nat) (r : Rsvp) :
    goingFor e' (cancelPair u e r)
      = (goingFor e' r && !(r.user_id == u && r.event_id == e)) := by
  by_cases hu : r.user_id = u <;> by_cases he : r.event_id = e <;>
    simp_all [goingFor, cancelPair, beq_eq_decide]

theorem interestedFor_cancelPair (u e e' : Nat) (r : Rsvp) :
    interestedFor e' (cancelPair u e r)
      = (interestedFor e' r && !(r.user_id == u && r.event_id == e)) := by
  by_cases hu : r.user_id = u <;> by_cases he : r.event_id = e <;>
    simp_all [interestedFor, cancelPair, beq_eq_decide]

theorem goingCount_cancel_split (u e e' : Nat) (l : List Rsvp) :
    ((l.map (cancelPair u e)).filter (goingFor e')).length
      + (l.filter (fun r => goingFor e' r && (r.user_id == u && r.event_id == e))).length
      = (l.filter (goingFor e')).length := by
  induction l with
  | nil => rfl
  | cons r rs ih =>
    simp only [List.map_cons, List.filter_cons, goingFor_cancelPair]
    cases hg : goingFor e' r <;> cases hp : (r.user_id == u && r.event_id == e) <;>
      simp [hg, hp] <;> omega

theorem interestedCount_cancel_split (u e e' : Nat) (l : List Rsvp) :
    ((l.map (cancelPair u e)).filter (interestedFor e')).length
      + (l.filter (fun r => interestedFor e' r && (r.user_id == u && r.event_id == e))).length
      = (l.filter (interestedFor e')).length := by
  induction l with
  | nil => rfl
  | cons r rs ih =>
    simp only [List.map_cons, List.filter_cons, interestedFor_cancelPair]
    cases hg : interestedFor e' r <;> cases hp : (r.user_id == u && r.event_id == e) <;>
      simp [hg, hp] <;> omega

/-- For rows of the pair, counting by the going filter plus the pair filter is
the same as filtering the active rows of the pair down to the `going` type. -/
theorem goingPair_eq_activeGoing (u e : Nat) (r : Rsvp) :
    (goingFor e r && (r.user_id == u && r.event_id == e))
      = (activeFor u e r && (r.rsvp_type == RsvpType.going)) := by
  by_cases hu : r.user_id = u <;> by_cases he : r.event_id = e <;>
    simp_all [goingFor, activeFor, beq_eq_decide, Bool.and_comm, Bool.and_left_comm]

theorem interestedPair_eq_activeInterested (u e : Nat) (r : Rsvp) :
    (interestedFor e r && (r.user_id == u && r.event_id == e))
      = (activeFor u e r && (r.rsvp_type == RsvpType.interested)) := by
  by_cases hu : r.user_id = u <;> by_cases he : r.event_id = e <;>
    simp_all [interestedFor, activeFor, beq_eq_decide, Bool.and_comm, Bool.and_left_comm]

theorem filter_and_eq (p q : Rsvp → Bool) (l : List Rsvp) :
    l.filter (fun r => p r && q r) = (l.filter p).filter q := by
  induction l with
  | nil => rfl
  | cons r rs ih =>
    cases hp : p r <;> cases hq : q r <;> simp [List.filter_cons, hp, hq, ih]

/-! ### Utilities about the single-row query -/

theorem singleRow_eq_some (l : List Rsvp) (r : Rsvp) (h : singleRow l = some r) :
    l = [r] := by
  cases l with
  | nil => simp [singleRow] at h
  | cons a m =>
    cases m with
    | nil =>
      simp only [singleRow, Option.some.injEq] at h
      rw [h]
    | cons b k => simp [singleRow] at h

theorem activeRows_nil_of_single_none (db : RsvpDB) (u e : Nat)
    (hinv : (activeRows db u e).length ≤ 1)
    (hnone : singleRow (activeRows db u e) = none) : activeRows db u e = [] := by
  cases h : activeRows db u e with
  | nil => rfl
  | cons a l =>
    cases l with
    | nil => rw [h] at hnone; simp [singleRow] at hnone
    | cons b m => rw [h] at hinv; simp at hinv

/-! ### Branch characterizations of `handleRSVP` -/

theorem handleRSVP_capacity_eq (db : RsvpDB) (u eid : Nat) (cap : Option Int)
    (t : RsvpType)
    (hgate : (t == RsvpType.going && capacityFull cap (goingCount db eid)) = true) :
    handleRSVP db (some u) eid cap t = (RsvpResult.capacityExceeded, db) := by
  simp [handleRSVP, hgate]

theorem handleRSVP_removed_eq (db : RsvpDB) (u eid : Nat) (cap : Option Int)
    (t : RsvpType)
    (hgate : (t == RsvpType.going && capacityFull cap (goingCount db eid)) = false)
    (hcur : pageCurrentRSVP db u eid = some t) :
    handleRSVP db (some u) eid cap t
      = (RsvpResult.removed, { db with rows := db.rows.map (cancelPair u eid) }) := by
  simp [handleRSVP, hgate, hcur]

theorem handleRSVP_changed_eq (db : RsvpDB) (u eid : Nat) (cap : Option Int)
    (t : RsvpType) (ex : Rsvp)
    (hgate : (t == RsvpType.going && capacityFull cap (goingCount db eid)) = false)
    (hcur : (pageCurrentRSVP db u eid == some t) = false)
    (hex : singleRow (activeRows db u eid) = some ex) :
    handleRSVP db (some u) eid cap t
      = (RsvpResult.changed, { db with rows := db.rows.map (setTypeById ex.id t) }) := by
  simp [handleRSVP, hgate, hcur, hex]

theorem handleRSVP_created_eq (db : RsvpDB) (u eid : Nat) (cap : Option Int)
    (t : RsvpType)
    (hgate : (t == RsvpType.going && capacityFull cap (goingCount db eid)) = false)
    (hcur : (pageCurrentRSVP db u eid == some t) = false)
    (hnone : singleRow (activeRows db u eid) = none) :
    handleRSVP db (some u) eid cap t
      = (RsvpResult.created,
          { rows := db.rows ++ [⟨db.nextId, u, eid, t, RsvpStatus.active⟩],
            nextId := db.nextId + 1 }) := by
  simp [handleRSVP, hgate, hcur, hnone]

/-! ### Invariant preservation for `handleRSVP` -/

theorem handleRSVP_preserves_atMostOne (db : RsvpDB) (u eid : Nat)
    (cap : Option Int) (t : RsvpType) (hinv : atMostOneActive db) :
    atMostOneActive (handleRSVP db (some u) eid cap t).2 := by
  cases hg : (t == RsvpType.going && capacityFull cap (goingCount db eid)) with
  | true => rw [handleRSVP_capacity_eq db u eid cap t hg]; exact hinv
  | false =>
    cases hc : (pageCurrentRSVP db u eid == some t) with
    | true =>
      have hcur : pageCurrentRSVP db u eid = some t := by
        simpa using hc
      rw [handleRSVP_removed_eq db u eid cap t hg hcur]
      intro u' e'
      by_cases hpe : u' = u ∧ e' = eid
      · obtain ⟨rfl, rfl⟩ := hpe
        show ((db.rows.map (cancelPair u' e')).filter (activeFor u' e')).length ≤ 1
        rw [filter_map_cancelPair_self]
        exact Nat.zero_le 1
      · have hne : u' ≠ u ∨ e' ≠ eid := by
          by_cases h1 : u' = u
          · exact Or.inr (fun h2 => hpe ⟨h1, h2⟩)
          · exact Or.inl h1
        show ((db.rows.map (cancelPair u eid)).filter (activeFor u' e')).length ≤ 1
        rw [filter_map_cancelPair_other u eid u' e' hne]
        exact hinv u' e'
    | false =>
      cases hex : singleRow (activeRows db u eid) with
      | some ex =>
        rw [handleRSVP_changed_eq db u eid cap t ex hg hc hex]
        intro u' e'
        show ((db.rows.map (setTypeById ex.id t)).filter (activeFor u' e')).length ≤ 1
        rw [filter_map_setTypeById, List.length_map]
        exact hinv u' e'
      | none =>
        rw [handleRSVP_created_eq db u eid cap t hg hc hex]
        intro u' e'
        have hempty : activeRows db u eid = [] :=
          activeRows_nil_of_single_none db u eid (hinv u eid) hex
        show ((db.rows ++ [(⟨db.nextId, u, eid, t, RsvpStatus.active⟩ : Rsvp)]).filter
            (activeFor u' e')).length ≤ 1
        rw [filter_append_single]
        by_cases hpe : u' = u ∧ e' = eid
        · obtain ⟨rfl, rfl⟩ := hpe
          have h0 : db.rows.filter (activeFor u' e') = [] := hempty
          simp [h0, activeFor]
        · have hnew : activeFor u' e' (⟨db.nextId, u, eid, t, RsvpStatus.active⟩ : Rsvp)
              = false := by
            by_cases h1 : u = u'
            · by_cases h2 : eid = e'
              · exact absurd ⟨h1.symm, h2.symm⟩ hpe
              · simp_all [activeFor, beq_eq_decide]
            · simp_all [activeFor, beq_eq_decide]
          rw [hnew]
          simp only [if_neg Bool.false_ne_true, List.append_nil]
          exact hinv u' e'

theorem runCalls_preserves_atMostOne (eid : Nat) (cap : Option Int) :
    ∀ (calls : List RsvpCall) (db : RsvpDB), atMostOneActive db →
      atMostOneActive (runCalls db eid cap calls)
  | [], _, h => h
  | c :: cs, db, h =>
    runCalls_preserves_atMostOne eid cap cs _
      (handleRSVP_preserves_atMostOne db c.user eid cap c.rtype h)

theorem emptyRsvpDB_atMostOne : atMostOneActive emptyRsvpDB := by
  intro u e
  simp [activeRows, emptyRsvpDB]

/-! ### Claim theorems about RSVP reconciliation -/

/-- A store holding a single active `going` RSVP by user 7 for event 1.  With
`capacity = 1` this event is exactly at capacity, and user 7 is the one
counted against it. -/
def dbAlreadyGoing : RsvpDB := ⟨[⟨0, 7, 1, RsvpType.going, RsvpStatus.active⟩], 1⟩

/-- C1: the sequential part of the claim holds (Scenario A: capacity 2,
three distinct users click Going; the first two succeed and the third is
rejected with `going_count` still 2), but the exemption claimed for a user
whose current active type is already `going` does not exist in the code:
`handleRSVP` runs the capacity check before the toggle-off branch and
without any already-going exemption, so user 7 — who holds the single
active `going` RSVP of event 1 with capacity 1 — is rejected with the
capacity-exceeded signal instead of reaching the toggle-off. -/
theorem capacity_gate_scenarioA_but_blocks_going_toggle :
    (let d1 := handleRSVP emptyRsvpDB (some 1) 0 (some 2) RsvpType.going
     let d2 := handleRSVP d1.2 (some 2) 0 (some 2) RsvpType.going
     let d3 := handleRSVP d2.2 (some 3) 0 (some 2) RsvpType.going
     d1.1 = RsvpResult.created ∧ d2.1 = RsvpResult.created ∧
       d3.1 = RsvpResult.capacityExceeded ∧ d3.2 = d2.2 ∧ goingCount d3.2 0 = 2) ∧
    handleRSVP dbAlreadyGoing (some 7) 1 (some 1) RsvpType.going
      = (RsvpResult.capacityExceeded, dbAlreadyGoing) :=
  ⟨by decide, by decide⟩

/-- C10: whenever a `handleRSVP` call takes the toggle-off branch (result
"removed"), the write is `update({status:"cancelled"})` filtered only by
`user_id` and `event_id` — every row of the pair is mapped through
`cancelPair`, with no status filter — and consequently no active RSVP row
remains for that pair, however many rows (active or already cancelled) the
pair had. -/
theorem toggle_off_cancels_every_row_of_pair (db : RsvpDB) (u eid : Nat)
    (cap : Option Int) (t : RsvpType)
    (h : (handleRSVP db (some u) eid cap t).1 = RsvpResult.removed) :
    (handleRSVP db (some u) eid cap t).2.rows = db.rows.map (cancelPair u eid) ∧
      activeRows (handleRSVP db (some u) eid cap t).2 u eid = [] := by
  cases hg : (t == RsvpType.going && capacityFull cap (goingCount db eid)) with
  | true =>
    rw [handleRSVP_capacity_eq db u eid cap t hg] at h
    simp at h
  | false =>
    cases hc : (pageCurrentRSVP db u eid == some t) with
    | true =>
      have hcur : pageCurrentRSVP db u eid = some t := by simpa using hc
      rw [handleRSVP_removed_eq db u eid cap t hg hcur]
      exact ⟨rfl, filter_map_cancelPair_self u eid db.rows⟩
    | false =>
      cases hex : singleRow (activeRows db u eid) with
      | some ex =>
        rw [handleRSVP_changed_eq db u eid cap t ex hg hc hex] at h
        simp at h
      | none =>
        rw [handleRSVP_created_eq db u eid cap t hg hc hex] at h
        simp at h

/-- A pair with one active row and one already-cancelled row, used to
instantiate the toggle-off frame theorem. -/
def dbToggleWitness : RsvpDB :=
  ⟨[⟨0, 2, 5, RsvpType.interested, RsvpStatus.active⟩,
    ⟨1, 2, 5, RsvpType.going, RsvpStatus.cancelled⟩], 2⟩

theorem toggle_off_cancels_every_row_of_pair_witness :
    (handleRSVP dbToggleWitness (some 2) 5 none RsvpType.interested).2.rows
        = dbToggleWitness.rows.map (cancelPair 2 5) ∧
      activeRows (handleRSVP dbToggleWitness (some 2) 5 none RsvpType.interested).2 2 5
        = [] :=
  toggle_off_cancels_every_row_of_pair dbToggleWitness 2 5 none RsvpType.interested
    (by decide)

/-- C6: sequential `setRSVP` calls keep at most one active RSVP row per
(user, event) pair.  A single call from any store satisfying the invariant
preserves it, a row is inserted (result "created") only when the pair had
no active row at all, and any sequence of sequential calls starting from
the empty store satisfies the invariant throughout. -/
theorem at_most_one_active_rsvp_per_pair :
    (∀ (db : RsvpDB) (u eid : Nat) (cap : Option Int) (t : RsvpType),
        atMostOneActive db →
          atMostOneActive (handleRSVP db (some u) eid cap t).2 ∧
            ((handleRSVP db (some u) eid cap t).1 = RsvpResult.created →
              activeRows db u eid = [])) ∧
    (∀ (eid : Nat) (cap : Option Int) (calls : List RsvpCall),
        atMostOneActive (runCalls emptyRsvpDB eid cap calls)) := by
  constructor
  · intro db u eid cap t hinv
    refine ⟨handleRSVP_preserves_atMostOne db u eid cap t hinv, ?_⟩
    intro h
    cases hg : (t == RsvpType.going && capacityFull cap (goingCount db eid)) with
    | true =>
      rw [handleRSVP_capacity_eq db u eid cap t hg] at h
      simp at h
    | false =>
      cases hc : (pageCurrentRSVP db u eid == some t) with
      | true =>
        have hcur : pageCurrentRSVP db u eid = some t := by simpa using hc
        rw [handleRSVP_removed_eq db u eid cap t hg hcur] at h
        simp at h
      | false =>
        cases hex : singleRow (activeRows db u eid) with
        | some ex =>
          rw [handleRSVP_changed_eq db u eid cap t ex hg hc hex] at h
          simp at h
        | none =>
          exact activeRows_nil_of_single_none db u eid (hinv u eid) hex
  · intro eid cap calls
    exact runCalls_preserves_atMostOne eid cap calls emptyRsvpDB emptyRsvpDB_atMostOne

theorem at_most_one_active_rsvp_per_pair_witness :
    activeRows emptyRsvpDB 0 0 = [] :=
  (at_most_one_active_rsvp_per_pair.1 emptyRsvpDB 0 0 none RsvpType.going
      emptyRsvpDB_atMostOne).2 (by decide)

/-- C4: for an authenticated call that passes the capacity gate, clicking
the type of the current active RSVP cancels it ("removed"), clicking the
other type while an active row exists rewrites that row's `rsvp_type` in
place — same row id, still active — ("changed"), and clicking with no
active row inserts a fresh active row ("created"); and the concrete
Scenario B — interested, going, going — makes the counts evolve
(1,0) → (0,1) on the same row → (0,0). -/
theorem setRSVP_toggle_change_create_semantics :
    (∀ (db : RsvpDB) (u eid : Nat) (cap : Option Int) (t : RsvpType),
        atMostOneActive db →
        (t = RsvpType.going → capacityFull cap (goingCount db eid) = false) →
        ((pageCurrentRSVP db u eid = some t →
            (handleRSVP db (some u) eid cap t).1 = RsvpResult.removed ∧
              activeRows (handleRSVP db (some u) eid cap t).2 u eid = []) ∧
          (∀ r, singleRow (activeRows db u eid) = some r → r.rsvp_type ≠ t →
            (handleRSVP db (some u) eid cap t).1 = RsvpResult.changed ∧
              activeRows (handleRSVP db (some u) eid cap t).2 u eid
                = [{ r with rsvp_type := t }]) ∧
          (pageCurrentRSVP db u eid = none →
            (handleRSVP db (some u) eid cap t).1 = RsvpResult.created ∧
              activeRows (handleRSVP db (some u) eid cap t).2 u eid
                = [⟨db.nextId, u, eid, t, RsvpStatus.active⟩]))) ∧
    (let s1 := handleRSVP emptyRsvpDB (some 0) 0 none RsvpType.interested
     let s2 := handleRSVP s1.2 (some 0) 0 none RsvpType.going
     let s3 := handleRSVP s2.2 (some 0) 0 none RsvpType.going
     s1.1 = RsvpResult.created ∧ interestedCount s1.2 0 = 1 ∧ goingCount s1.2 0 = 0 ∧
       s2.1 = RsvpResult.changed ∧ interestedCount s2.2 0 = 0 ∧ goingCount s2.2 0 = 1 ∧
       (activeRows s2.2 0 0).map (fun r => r.id) = (activeRows s1.2 0 0).map (fun r => r.id) ∧
       s3.1 = RsvpResult.removed ∧ interestedCount s3.2 0 = 0 ∧ goingCount s3.2 0 = 0) := by
  constructor
  · intro db u eid cap t hinv hcap
    have hg : (t == RsvpType.going && capacityFull cap (goingCount db eid)) = false := by
      cases t with
      | interested => rfl
      | going => simp [hcap rfl]
    refine ⟨?_, ?_, ?_⟩
    · intro hcur
      rw [handleRSVP_removed_eq db u eid cap t hg hcur]
      exact ⟨rfl, filter_map_cancelPair_self u eid db.rows⟩
    · intro r hr hne
      have hcur : pageCurrentRSVP db u eid = some r.rsvp_type := by
        simp [pageCurrentRSVP, hr]
      have hbeq : (pageCurrentRSVP db u eid == some t) = false := by
        rw [hcur]
        simp [hne]
      rw [handleRSVP_changed_eq db u eid cap t r hg hbeq hr]
      refine ⟨rfl, ?_⟩
      show (db.rows.map (setTypeById r.id t)).filter (activeFor u eid)
          = [{ r with rsvp_type := t }]
      rw [filter_map_setTypeById]
      have h1 : db.rows.filter (activeFor u eid) = [r] := singleRow_eq_some _ r hr
      rw [h1]
      simp [setTypeById]
    · intro hcur
      have hnone : singleRow (activeRows db u eid) = none := by
        have := hcur
        unfold pageCurrentRSVP at this
        exact Option.map_eq_none'.mp this
      have hbeq : (pageCurrentRSVP db u eid == some t) = false := by
        rw [hcur]
        rfl
      rw [handleRSVP_created_eq db u eid cap t hg hbeq hnone]
      refine ⟨rfl, ?_⟩
      have hempty : activeRows db u eid = [] :=
        activeRows_nil_of_single_none db u eid (hinv u eid) hnone
      show ((db.rows ++ [(⟨db.nextId, u, eid, t, RsvpStatus.active⟩ : Rsvp)]).filter
          (activeFor u eid)) = [⟨db.nextId, u, eid, t, RsvpStatus.active⟩]
      rw [filter_append_single]
      have h0 : db.rows.filter (activeFor u eid) = [] := hempty
      simp [h0, activeFor]
  · decide

theorem setRSVP_toggle_change_create_semantics_witness :
    (handleRSVP dbAlreadyGoing (some 7) 1 none RsvpType.going).1 = RsvpResult.removed ∧
      activeRows (handleRSVP dbAlreadyGoing (some 7) 1 none RsvpType.going).2 7 1 = [] :=
  ((setRSVP_toggle_change_create_semantics.1 dbAlreadyGoing 7 1 none RsvpType.going
      (fun u e => le_trans (List.length_filter_le _ _) (by decide))
      (fun _ => by decide)).1 (by decide))

/-- C7: clicking the same RSVP type twice in a row, starting from a state
where that RSVP is active and where `going_count` does not exceed the
capacity (as holds in every sequentially reachable state), leaves
`interested_count` and `going_count` at their original values: the first
click toggles the RSVP off and the second re-creates it (or, when the event
sits exactly at capacity with a `going` RSVP, both clicks are rejected by
the capacity gate and nothing changes at all). -/
theorem toggle_twice_restores_counts (db : RsvpDB) (u eid : Nat) (cap : Option Int)
    (r : Rsvp) (hone : activeRows db u eid = [r])
    (hcap : ∀ c : Int, cap = some c → (goingCount db eid : Int) ≤ c) :
    goingCount (handleRSVP (handleRSVP db (some u) eid cap r.rsvp_type).2
        (some u) eid cap r.rsvp_type).2 eid = goingCount db eid ∧
      interestedCount (handleRSVP (handleRSVP db (some u) eid cap r.rsvp_type).2
        (some u) eid cap r.rsvp_type).2 eid = interestedCount db eid := by
  have hKg := goingCount_cancel_split u eid eid db.rows
  have hKi := interestedCount_cancel_split u eid eid db.rows
  have hKgEq : db.rows.filter (fun x => goingFor eid x && (x.user_id == u && x.event_id == eid))
      = (db.rows.filter (activeFor u eid)).filter (fun x => x.rsvp_type == RsvpType.going) := by
    rw [← filter_and_eq]
    apply List.filter_congr
    intro x _
    exact goingPair_eq_activeGoing u eid x
  have hKiEq : db.rows.filter (fun x => interestedFor eid x && (x.user_id == u && x.event_id == eid))
      = (db.rows.filter (activeFor u eid)).filter (fun x => x.rsvp_type == RsvpType.interested) := by
    rw [← filter_and_eq]
    apply List.filter_congr
    intro x _
    exact interestedPair_eq_activeInterested u eid x
  have hfilter : db.rows.filter (activeFor u eid) = [r] := hone
  rw [hKgEq, hfilter] at hKg
  rw [hKiEq, hfilter] at hKi
  have hcur : pageCurrentRSVP db u eid = some r.rsvp_type := by
    simp [pageCurrentRSVP, hone, singleRow]
  cases hT : r.rsvp_type with
  | interested =>
    rw [hT] at hcur
    simp only [hT, List.filter_cons, List.filter_nil] at hKg hKi
    rw [if_neg (by decide)] at hKg
    rw [if_pos (by decide)] at hKi
    simp only [List.length_nil, List.length_cons, Nat.add_zero] at hKg hKi
    have hg : (RsvpType.interested == RsvpType.going
        && capacityFull cap (goingCount db eid)) = false := rfl
    rw [handleRSVP_removed_eq db u eid cap RsvpType.interested hg hcur]
    have hactive1 : ((db.rows.map (cancelPair u eid)).filter (activeFor u eid)) = [] :=
      filter_map_cancelPair_self u eid db.rows
    have hcur1 : pageCurrentRSVP { db with rows := db.rows.map (cancelPair u eid) } u eid
        = none := by
      simp [pageCurrentRSVP, activeRows, hactive1, singleRow]
    have hsingle1 : singleRow (activeRows { db with rows := db.rows.map (cancelPair u eid) } u eid)
        = none := by
      simp [activeRows, hactive1, singleRow]
    have hg1 : (RsvpType.interested == RsvpType.going
        && capacityFull cap (goingCount { db with rows := db.rows.map (cancelPair u eid) } eid))
          = false := rfl
    have hbeq1 : (pageCurrentRSVP { db with rows := db.rows.map (cancelPair u eid) } u eid
        == some RsvpType.interested) = false := by
      rw [hcur1]
      rfl
    rw [handleRSVP_created_eq _ u eid cap RsvpType.interested hg1 hbeq1 hsingle1]
    constructor
    · show ((db.rows.map (cancelPair u eid)
          ++ [(⟨db.nextId, u, eid, RsvpType.interested, RsvpStatus.active⟩ : Rsvp)]).filter
            (goingFor eid)).length = goingCount db eid
      rw [filter_append_single]
      have hnew : goingFor eid (⟨db.nextId, u, eid, RsvpType.interested, RsvpStatus.active⟩ : Rsvp)
          = false := by simp [goingFor]
      rw [hnew]
      simp only [if_neg Bool.false_ne_true, List.append_nil]
      unfold goingCount
      exact hKg
    · show ((db.rows.map (cancelPair u eid)
          ++ [(⟨db.nextId, u, eid, RsvpType.interested, RsvpStatus.active⟩ : Rsvp)]).filter
            (interestedFor eid)).length = interestedCount db eid
      rw [filter_append_single]
      have hnew : interestedFor eid (⟨db.nextId, u, eid, RsvpType.interested, RsvpStatus.active⟩ : Rsvp)
          = true := by simp [interestedFor]
      rw [hnew]
      simp only [if_pos rfl, List.length_append, List.length_singleton]
      unfold interestedCount
      exact hKi
  | going =>
    rw [hT] at hcur
    simp only [hT, List.filter_cons, List.filter_nil] at hKg hKi
    rw [if_pos (by decide)] at hKg
    rw [if_neg (by decide)] at hKi
    simp only [List.length_nil, List.length_cons, Nat.add_zero] at hKg hKi
    cases hgf : capacityFull cap (goingCount db eid) with
    | true =>
      have hg : (RsvpType.going == RsvpType.going
          && capacityFull cap (goingCount db eid)) = true := by simp [hgf]
      rw [handleRSVP_capacity_eq db u eid cap RsvpType.going hg,
        handleRSVP_capacity_eq db u eid cap RsvpType.going hg]
      exact ⟨rfl, rfl⟩
    | false =>
      have hg : (RsvpType.going == RsvpType.going
          && capacityFull cap (goingCount db eid)) = false := by simp [hgf]
      rw [handleRSVP_removed_eq db u eid cap RsvpType.going hg hcur]
      have hactive1 : ((db.rows.map (cancelPair u eid)).filter (activeFor u eid)) = [] :=
        filter_map_cancelPair_self u eid db.rows
      have hcur1 : pageCurrentRSVP { db with rows := db.rows.map (cancelPair u eid) } u eid
          = none := by
        simp [pageCurrentRSVP, activeRows, hactive1, singleRow]
      have hsingle1 : singleRow (activeRows { db with rows := db.rows.map (cancelPair u eid) } u eid)
          = none := by
        simp [activeRows, hactive1, singleRow]
      have hg1 : (RsvpType.going == RsvpType.going
          && capacityFull cap (goingCount { db with rows := db.rows.map (cancelPair u eid) } eid))
            = false := by
        have hcf : capacityFull cap
            (goingCount { db with rows := db.rows.map (cancelPair u eid) } eid) = false := by
          cases cap with
          | none => rfl
          | some c =>
            have hc := hcap c rfl
            unfold goingCount at hc
            show capacityFull (some c)
              ((db.rows.map (cancelPair u eid)).filter (goingFor eid)).length = false
            simp only [capacityFull, ge_iff_le, decide_eq_false_iff_not, not_le]
            omega
        simp [hcf]
      have hbeq1 : (pageCurrentRSVP { db with rows := db.rows.map (cancelPair u eid) } u eid
          == some RsvpType.going) = false := by
        rw [hcur1]
        rfl
      rw [handleRSVP_created_eq _ u eid cap RsvpType.going hg1 hbeq1 hsingle1]
      constructor
      · show ((db.rows.map (cancelPair u eid)
            ++ [(⟨db.nextId, u, eid, RsvpType.going, RsvpStatus.active⟩ : Rsvp)]).filter
              (goingFor eid)).length = goingCount db eid
        rw [filter_append_single]
        have hnew : goingFor eid (⟨db.nextId, u, eid, RsvpType.going, RsvpStatus.active⟩ : Rsvp)
            = true := by simp [goingFor]
        rw [hnew]
        simp only [if_pos rfl, List.length_append, List.length_singleton]
        unfold goingCount
        exact hKg
      · show ((db.rows.map (cancelPair u eid)
            ++ [(⟨db.nextId, u, eid, RsvpType.going, RsvpStatus.active⟩ : Rsvp)]).filter
              (interestedFor eid)).length = interestedCount db eid
        rw [filter_append_single]
        have hnew : interestedFor eid (⟨db.nextId, u, eid, RsvpType.going, RsvpStatus.active⟩ : Rsvp)
            = false := by simp [interestedFor]
        rw [hnew]
        simp only [if_neg Bool.false_ne_true, List.append_nil]
        unfold interestedCount
        exact hKi

theorem toggle_twice_restores_counts_witness :
    goingCount (handleRSVP (handleRSVP dbAlreadyGoing (some 7) 1 (some 5)
        RsvpType.going).2 (some 7) 1 (some 5) RsvpType.going).2 1
      = goingCount dbAlreadyGoing 1 ∧
    interestedCount (handleRSVP (handleRSVP dbAlreadyGoing (some 7) 1 (some 5)
        RsvpType.going).2 (some 7) 1 (some 5) RsvpType.going).2 1
      = interestedCount dbAlreadyGoing 1 := by
  have h := toggle_twice_restores_counts dbAlreadyGoing 7 1 (some 5)
    ⟨0, 7, 1, RsvpType.going, RsvpStatus.active⟩ (by decide)
    (by intro c hc; cases hc; decide)
  exact h

/-! ### Events: data model -/

/-- Moderation status of an event; `cancelled` is layered onto the same
column (`status`) as the moderation outcome. -/
inductive EventStatus
  | pending
  | approved
  | rejected
  | cancelled
deriving DecidableEq, Repr

/-- One row of the `events` table (the columns the lifecycle logic touches).
Prices are embedded as integers — the source parses them with `parseFloat`,
but no claim depends on fractional prices.  Timestamps are opaque naturals. -/
structure Event where
  id : Nat
  title : String
  description : String
  category : String
  date : String
  time : String
  location : String
  price : Int
  capacity : Option Int
  image_url : Option String
  contact_whatsapp : Option String
  contact_email : Option String
  booking_link : Option String
  venue_name : String
  venue_user_id : Nat
  status : EventStatus
  rejection_reason : Option String
  cancellation_requested : Bool
  cancellation_reason : Option String
  cancellation_requested_at : Option Nat
  cancellation_approved_by_admin : Bool
  cancelled_at : Option Nat
deriving DecidableEq, Repr

/-! ### Events: the update payloads of the admin / venue handlers -/

/-- `handleApprove` (`ApproveRejectButtons.tsx` lines 44-72):
`update({ status: "approved", rejection_reason: null })`. -/
def approveUpdate (e : Event) : Event :=
  { e with status := EventStatus.approved, rejection_reason := none }

/-- `handleRejectSubmit` (lines 80-114): stores the trimmed reason. -/
def rejectUpdate (reason : String) (e : Event) : Event :=
  { e with status := EventStatus.rejected, rejection_reason := some reason }

/-- `handleCancelEvent` of the edit page (lines 1105-1138): stores the
trimmed reason and a request timestamp. -/
def requestCancellationUpdate (reason : String) (now : Nat) (e : Event) : Event :=
  { e with cancellation_requested := true,
           cancellation_reason := some reason,
           cancellation_requested_at := some now }

/-- `handleApproveCancellation` (`CancellationApprovalButtons.tsx`
lines 287-323): `update({ status: "cancelled",
cancellation_approved_by_admin: true, cancelled_at: now })`. -/
def approveCancellationUpdate (now : Nat) (e : Event) : Event :=
  { e with status := EventStatus.cancelled,
           cancellation_approved_by_admin := true,
           cancelled_at := some now }

/-- `handleRejectCancellation` (lines 326-359): clears exactly the three
request fields and touches nothing else. -/
def rejectCancellationUpdate (e : Event) : Event :=
  { e with cancellation_requested := false,
           cancellation_reason := none,
           cancellation_requested_at := none }

/-- Edit-page access check (edit page lines 904-912): a cancelled event
(status `cancelled`, or cancellation already approved) cannot be edited. -/
def editableEvent (e : Event) : Bool :=
  !(e.status == EventStatus.cancelled || e.cancellation_approved_by_admin)

/-- Admin-page filter for the cancellation-requests section
(`app/admin/page.tsx` lines 74-80): the approve / reject cancellation
buttons are rendered exactly for these events. -/
def cancellationRequestGuard (e : Event) : Bool :=
  e.cancellation_requested && !e.cancellation_approved_by_admin

/-! ### Events: create and edit forms -/

/-- The event form state (shared by the create page and the edit page):
text inputs as strings, numeric inputs as their parsed value (`none` for an
empty field, failing the `!price` / `!capacity` checks). -/
structure EditForm where
  title : String
  description : String
  category : String
  date : String
  time : String
  location : String
  price : Option Int
  hasCapacity : Bool
  capacity : Option Int
  contactWhatsapp : String
  contactEmail : String
  bookingLink : String
  imageUrl : Option String
deriving DecidableEq, Repr

/-- JS `String.prototype.trim`: strips leading and trailing whitespace.
Defined over the character list so that concrete forms evaluate inside the
kernel (Lean's own `String.trim` does not reduce there). -/
def jsTrim (s : String) : String :=
  ⟨((s.data.dropWhile Char.isWhitespace).reverse.dropWhile Char.isWhitespace).reverse⟩

/-- Required-field presence check, identical in create (`handleReviewClick`,
`test-connection/page.tsx` lines 374-401) and edit (`handleSubmit`, edit
page lines 1027-1038): title, description and location are trimmed, the
other fields fail only when empty. -/
def missingRequired (f : EditForm) : Bool :=
  jsTrim f.title == "" || jsTrim f.description == "" || f.category == "" ||
    f.date == "" || f.time == "" || jsTrim f.location == "" || f.price.isNone

/-- `s.trim() || null`: empty-after-trim strings are stored as null. -/
def trimToOption (s : String) : Option String :=
  if jsTrim s == "" then none else some (jsTrim s)

inductive EditResult
  | missingFields
  | invalidCapacity
  | capacityBelowGoing
  | saved
deriving DecidableEq, Repr

/-- `handleSubmit` of the edit page (lines 1023-1103), with `gCount` the
`goingCount` state loaded by the page.  Checks in source order:
required fields; `hasCapacity && (!capacity || parseInt(capacity) < 0)`
(note: `< 0`, so capacity 0 passes this check on edit);
`hasCapacity && parseInt(capacity) < goingCount`; then one update of the
mutable content fields — `status` and the cancellation columns are not in
`updateData`.  Every rejection happens before the single write. -/
def editSubmit (e : Event) (gCount : Nat) (f : EditForm) : EditResult × Event :=
  if missingRequired f then (EditResult.missingFields, e)
  else if f.hasCapacity && (f.capacity.isNone || decide ((f.capacity.getD 0) < 0)) then
    (EditResult.invalidCapacity, e)
  else if f.hasCapacity && decide ((f.capacity.getD 0) < (gCount : Int)) then
    (EditResult.capacityBelowGoing, e)
  else
    (EditResult.saved,
      { e with
          title := jsTrim f.title,
          description := jsTrim f.description,
          category := f.category,
          date := f.date,
          time := f.time,
          location := jsTrim f.location,
          price := f.price.getD 0,
          capacity := if f.hasCapacity then some (f.capacity.getD 0) else none,
          image_url := f.imageUrl,
          contact_whatsapp := trimToOption f.contactWhatsapp,
          contact_email := trimToOption f.contactEmail,
          booking_link := trimToOption f.bookingLink })

inductive CreateResult
  | missingFields
  | invalidCapacity
  | ok
deriving DecidableEq, Repr

/-- `handleReviewClick` of the create page (lines 370-408): required
fields, then `hasCapacity && (!capacity || parseInt(capacity) <= 0)` —
note `<= 0` here, unlike the `< 0` of the edit path. -/
def handleReviewClick (f : EditForm) : CreateResult :=
  if missingRequired f then CreateResult.missingFields
  else if f.hasCapacity && (f.capacity.isNone || decide ((f.capacity.getD 0) ≤ 0)) then
    CreateResult.invalidCapacity
  else CreateResult.ok

/-- The `eventData` insert payload of the create page's `handleSubmit`
(lines 446-462): status starts `pending`; the cancellation columns are not
in the payload and take their schema defaults (false / null). -/
def submitEventData (f : EditForm) (venueName : String) (venueUserId eid : Nat) :
    Event :=
  { id := eid,
    title := jsTrim f.title,
    description := jsTrim f.description,
    category := f.category,
    date := f.date,
    time := f.time,
    location := jsTrim f.location,
    price := f.price.getD 0,
    capacity := if f.hasCapacity then some (f.capacity.getD 0) else none,
    image_url := f.imageUrl,
    contact_whatsapp := trimToOption f.contactWhatsapp,
    contact_email := trimToOption f.contactEmail,
    booking_link := trimToOption f.bookingLink,
    venue_name := venueName,
    venue_user_id := venueUserId,
    status := EventStatus.pending,
    rejection_reason := none,
    cancellation_requested := false,
    cancellation_reason := none,
    cancellation_requested_at := none,
    cancellation_approved_by_admin := false,
    cancelled_at := none }

/-- The create flow: the review gate must pass before `handleSubmit` runs
(the review modal is only opened by `handleReviewClick`). -/
def createEvent (f : EditForm) (venueName : String) (venueUserId eid : Nat) :
    Option Event :=
  if handleReviewClick f = CreateResult.ok then
    some (submitEventData f venueName venueUserId eid)
  else none

/-- The admin page renders `CancellationApprovalButtons` only for events in
the `cancellationRequests` list; clicking approve runs the unconditional
`update(...).eq("id", eventId)` of `handleApproveCancellation`.  The
composite operation for an event id: a no-op when no row of that id is in
the filtered list, otherwise the update applied to the rows of that id. -/
def adminApproveCancellation (table : List Event) (eid now : Nat) : List Event :=
  if (table.filter (fun e => e.id == eid && cancellationRequestGuard e)).isEmpty then
    table
  else
    table.map (fun e => if e.id == eid then approveCancellationUpdate now e else e)

/-! ### Concrete events and forms used to instantiate the theorems -/

def evApproved : Event :=
  { id := 2, title := "Jazz Night", description := "Live jazz",
    category := "Music", date := "2025-06-01", time := "19:00",
    location := "Main Hall", price := 10, capacity := some 5,
    image_url := none, contact_whatsapp := none, contact_email := none,
    booking_link := none, venue_name := "Blue Note", venue_user_id := 4,
    status := EventStatus.approved, rejection_reason := none,
    cancellation_requested := false, cancellation_reason := none,
    cancellation_requested_at := none,
    cancellation_approved_by_admin := false, cancelled_at := none }

/-- The same event with a pending cancellation request. -/
def evCancelReq : Event :=
  { evApproved with
      id := 3,
      cancellation_requested := true,
      cancellation_reason := some "venue double-booked",
      cancellation_requested_at := some 100 }

def baseForm : EditForm :=
  { title := "Jazz Night", description := "Live jazz", category := "Music",
    date := "2025-06-01", time := "19:00", location := "Main Hall",
    price := some 10, hasCapacity := true, capacity := some 5,
    contactWhatsapp := "", contactEmail := "", bookingLink := "",
    imageUrl := none }

def formCapOne : EditForm := { baseForm with capacity := some 1 }

def formCapZero : EditForm := { baseForm with capacity := some 0 }

/-! ### Claim theorems about the event lifecycle handlers -/

/-- C3: an edit whose new capacity is strictly below the current count of
active going RSVPs is rejected before the write: the submit handler does
not reach the saved branch and the stored event — every field of it — is
returned unchanged. -/
theorem edit_capacity_below_going_rejected (e : Event) (g : Nat) (f : EditForm)
    (_hcapset : e.capacity.isSome = true)
    (hset : f.hasCapacity = true)
    (hlow : ∀ c : Int, f.capacity = some c → c < (g : Int)) :
    (editSubmit e g f).1 ≠ EditResult.saved ∧ (editSubmit e g f).2 = e := by
  unfold editSubmit
  cases hmr : missingRequired f with
  | true => simp [hmr]
  | false =>
    cases hcap : f.capacity with
    | none => simp [hmr, hset, hcap]
    | some c =>
      have hc := hlow c hcap
      by_cases hneg : c < 0
      · simp [hmr, hset, hcap, hneg]
      · simp [hmr, hset, hcap, hneg, hc]

theorem edit_capacity_below_going_rejected_witness :
    (editSubmit evApproved 3 formCapOne).1 ≠ EditResult.saved ∧
      (editSubmit evApproved 3 formCapOne).2 = evApproved :=
  edit_capacity_below_going_rejected evApproved 3 formCapOne (by decide) (by decide)
    (by
      intro c hc
      simp only [formCapOne, baseForm, Option.some.injEq] at hc
      omega)

/-- C8: the reject-cancellation update sets exactly
`cancellation_requested := false`, `cancellation_reason := null` and
`cancellation_requested_at := null`; every other column is untouched, so an
approved event with a pending (not yet admin-approved) request stays
`approved` and is editable again. -/
theorem reject_cancellation_clears_request_only (e : Event) :
    ((rejectCancellationUpdate e).cancellation_requested = false ∧
      (rejectCancellationUpdate e).cancellation_reason = none ∧
      (rejectCancellationUpdate e).cancellation_requested_at = none) ∧
    ((rejectCancellationUpdate e).id = e.id ∧
      (rejectCancellationUpdate e).title = e.title ∧
      (rejectCancellationUpdate e).description = e.description ∧
      (rejectCancellationUpdate e).category = e.category ∧
      (rejectCancellationUpdate e).date = e.date ∧
      (rejectCancellationUpdate e).time = e.time ∧
      (rejectCancellationUpdate e).location = e.location ∧
      (rejectCancellationUpdate e).price = e.price ∧
      (rejectCancellationUpdate e).capacity = e.capacity ∧
      (rejectCancellationUpdate e).image_url = e.image_url ∧
      (rejectCancellationUpdate e).contact_whatsapp = e.contact_whatsapp ∧
      (rejectCancellationUpdate e).contact_email = e.contact_email ∧
      (rejectCancellationUpdate e).booking_link = e.booking_link ∧
      (rejectCancellationUpdate e).venue_name = e.venue_name ∧
      (rejectCancellationUpdate e).venue_user_id = e.venue_user_id ∧
      (rejectCancellationUpdate e).status = e.status ∧
      (rejectCancellationUpdate e).rejection_reason = e.rejection_reason ∧
      (rejectCancellationUpdate e).cancellation_approved_by_admin
        = e.cancellation_approved_by_admin ∧
      (rejectCancellationUpdate e).cancelled_at = e.cancelled_at) ∧
    (e.status = EventStatus.approved → e.cancellation_approved_by_admin = false →
      (rejectCancellationUpdate e).status = EventStatus.approved ∧
        editableEvent (rejectCancellationUpdate e) = true) := by
  refine ⟨⟨rfl, rfl, rfl⟩,
    ⟨rfl, rfl, rfl, rfl, rfl, rfl, rfl, rfl, rfl, rfl, rfl, rfl, rfl, rfl, rfl, rfl,
      rfl, rfl, rfl⟩, ?_⟩
  intro hst hadm
  exact ⟨hst, by simp [editableEvent, rejectCancellationUpdate, hst, hadm]⟩

theorem reject_cancellation_clears_request_only_witness :
    (rejectCancellationUpdate evCancelReq).status = EventStatus.approved ∧
      editableEvent (rejectCancellationUpdate evCancelReq) = true :=
  (reject_cancellation_clears_request_only evCancelReq).2.2 rfl rfl

/-- C5: approve-cancellation is available only for events in the admin
page's cancellation-requests list (`cancellation_requested = true` and
`cancellation_approved_by_admin = false`); invoked on an id with no such
row it is a no-op, on a qualifying event it sets status `cancelled`,
`cancellation_approved_by_admin = true` and stamps `cancelled_at`; and the
operation is an update, never a delete — the table keeps exactly the same
row ids, so the event stays queryable. -/
theorem approve_cancellation_requires_request (table : List Event) (eid now : Nat) :
    ((∀ e ∈ table, e.id = eid → cancellationRequestGuard e = false) →
        adminApproveCancellation table eid now = table) ∧
    (∀ e ∈ table, e.id = eid → e.cancellation_requested = true →
        e.cancellation_approved_by_admin = false →
          ∃ e2 ∈ adminApproveCancellation table eid now,
            e2.id = eid ∧ e2.status = EventStatus.cancelled ∧
              e2.cancellation_approved_by_admin = true ∧
              e2.cancelled_at = some now) ∧
    (adminApproveCancellation table eid now).map (fun e => e.id)
      = table.map (fun e => e.id) := by
  refine ⟨?_, ?_, ?_⟩
  · intro hnone
    have hfil : table.filter (fun e => e.id == eid && cancellationRequestGuard e) = [] := by
      apply List.filter_eq_nil_iff.mpr
      intro e he
      by_cases hid : e.id = eid
      · simp [hid, hnone e he hid]
      · simp [beq_eq_decide, hid]
    simp [adminApproveCancellation, hfil]
  · intro e he hid hreq hadm
    have hguard : (e.id == eid && cancellationRequestGuard e) = true := by
      simp [cancellationRequestGuard, hid, hreq, hadm]
    have hmem : e ∈ table.filter (fun x => x.id == eid && cancellationRequestGuard x) :=
      List.mem_filter.mpr ⟨he, hguard⟩
    have hne : (table.filter (fun x => x.id == eid && cancellationRequestGuard x)).isEmpty
        = false := by
      cases hl : table.filter (fun x => x.id == eid && cancellationRequestGuard x) with
      | nil => rw [hl] at hmem; cases hmem
      | cons a l => rfl
    refine ⟨approveCancellationUpdate now e, ?_, ?_⟩
    · unfold adminApproveCancellation
      rw [hne]
      simp only [Bool.false_eq_true, if_false]
      exact List.mem_map.mpr ⟨e, he, by simp [hid]⟩
    · exact ⟨by simp [approveCancellationUpdate, hid], rfl, rfl, rfl⟩
  · unfold adminApproveCancellation
    split
    · rfl
    · rw [List.map_map]
      apply List.map_congr_left
      intro e _
      by_cases hid : (e.id == eid) = true <;>
        simp [Function.comp, hid, approveCancellationUpdate]

theorem approve_cancellation_requires_request_witness :
    adminApproveCancellation [evApproved] 2 9 = [evApproved] ∧
      (∃ e2 ∈ adminApproveCancellation [evCancelReq] 3 9,
        e2.id = 3 ∧ e2.status = EventStatus.cancelled ∧
          e2.cancellation_approved_by_admin = true ∧ e2.cancelled_at = some 9) := by
  constructor
  · exact (approve_cancellation_requires_request [evApproved] 2 9).1
      (by
        intro e he hid
        rw [List.mem_singleton] at he
        subst he
        decide)
  · exact (approve_cancellation_requires_request [evCancelReq] 3 9).2.1 evCancelReq
      (List.mem_singleton.mpr rfl) (by decide) (by decide) (by decide)

/-- C9 counterexample: on the edit path the capacity validation is only
`parseInt(capacity) < 0`, so an edit that sets capacity to 0 — a
non-positive value — while the event has no going RSVPs passes validation
and stores capacity 0. -/
theorem edit_accepts_capacity_zero :
    (editSubmit evApproved 0 formCapZero).1 = EditResult.saved ∧
      (editSubmit evApproved 0 formCapZero).2.capacity = some 0 := by
  exact ⟨by decide, by decide⟩

/-- C9 (amended): the create path accepts only strictly positive
capacities, so capacities stored at creation are positive; the edit path
rejects only negative capacities (and values below the current going
count), so capacities stored by an edit are merely non-negative — capacity
0 is storable via edit when the going count is 0. -/
theorem stored_capacity_positive_on_create_nonneg_on_edit :
    (∀ (f : EditForm) (vn : String) (vid eid : Nat) (ev : Event),
        createEvent f vn vid eid = some ev →
          ∀ c : Int, ev.capacity = some c → 0 < c) ∧
    (∀ (e : Event) (g : Nat) (f : EditForm),
        (editSubmit e g f).1 = EditResult.saved →
          ∀ c : Int, (editSubmit e g f).2.capacity = some c →
            0 ≤ c ∧ (g : Int) ≤ c) := by
  constructor
  · intro f vn vid eid ev hcreate c hcap
    unfold createEvent at hcreate
    by_cases hok : handleReviewClick f = CreateResult.ok
    case neg => rw [if_neg hok] at hcreate; cases hcreate
    case pos =>
      rw [if_pos hok] at hcreate
      have hev : submitEventData f vn vid eid = ev := by
        exact Option.some.inj hcreate
      subst hev
      unfold handleReviewClick at hok
      cases hmr : missingRequired f with
      | true => rw [if_pos (by rw [hmr])] at hok; cases hok
      | false =>
        rw [if_neg (by rw [hmr]; exact Bool.false_ne_true)] at hok
        cases hHC : f.hasCapacity with
        | false =>
          unfold submitEventData at hcap
          simp [hHC] at hcap
        | true =>
          by_cases hcond : (f.hasCapacity
              && (f.capacity.isNone || decide ((f.capacity.getD 0) ≤ 0))) = true
          · rw [if_pos hcond] at hok; cases hok
          · have hpos : ¬((f.capacity.getD 0) ≤ 0) := by
              rcases Bool.and_eq_false_iff.mp (Bool.eq_false_iff.mpr hcond) with h | h
              · rw [hHC] at h; cases h
              · rcases Bool.or_eq_false_iff.mp h with ⟨h1, h2⟩
                exact of_decide_eq_false h2
            unfold submitEventData at hcap
            simp [hHC] at hcap
            omega
  · intro e g f hsaved c hcap
    unfold editSubmit at hsaved hcap
    cases hmr : missingRequired f with
    | true => rw [if_pos (by rw [hmr])] at hsaved; cases hsaved
    | false =>
      rw [if_neg (by rw [hmr]; exact Bool.false_ne_true)] at hsaved hcap
      by_cases hcond : (f.hasCapacity
          && (f.capacity.isNone || decide ((f.capacity.getD 0) < 0))) = true
      · rw [if_pos hcond] at hsaved; cases hsaved
      · rw [if_neg hcond] at hsaved hcap
        by_cases hcond2 : (f.hasCapacity && decide ((f.capacity.getD 0) < (g : Int))) = true
        · rw [if_pos hcond2] at hsaved; cases hsaved
        · rw [if_neg hcond2] at hcap
          cases hHC : f.hasCapacity with
          | false => simp [hHC] at hcap
          | true =>
            have hnn : ¬((f.capacity.getD 0) < 0) := by
              rcases Bool.and_eq_false_iff.mp (Bool.eq_false_iff.mpr hcond) with h | h
              · rw [hHC] at h; cases h
              · rcases Bool.or_eq_false_iff.mp h with ⟨h1, h2⟩
                exact of_decide_eq_false h2
            have hge : ¬((f.capacity.getD 0) < (g : Int)) := by
              rcases Bool.and_eq_false_iff.mp (Bool.eq_false_iff.mpr hcond2) with h | h
              · rw [hHC] at h; cases h
              · exact of_decide_eq_false h
            simp [hHC] at hcap
            omega

theorem stored_capacity_positive_on_create_nonneg_on_edit_witness :
    (0 : Int) ≤ 5 ∧ ((3 : Nat) : Int) ≤ 5 :=
  (stored_capacity_positive_on_create_nonneg_on_edit.2 evApproved 3 baseForm
    (by decide) 5 (by decide))

/-! ### The event lifecycle as a guarded state machine -/

/-- One event together with its RSVP rows. -/
structure EventState where
  event : Event
  rsvps : RsvpDB

/-- The edit page's `rsvpCount` (lines 941-958): active interested plus
active going RSVPs of the event. -/
def activeRsvpTotal (s : EventState) : Nat :=
  interestedCount s.rsvps s.event.id + goingCount s.rsvps s.event.id

/-- The operations defined on one event after submission. -/
inductive LifecycleOp
  | approve
  | reject (reason : String)
  | edit (f : EditForm)
  | requestCancel (reason : String) (now : Nat)
  | approveCancel (now : Nat)
  | rejectCancel
  | rsvp (user : Nat) (t : RsvpType)

/-- One lifecycle step.  Each handler runs behind the guard under which the
UI reaches it: approve / reject buttons only exist for pending events
(`admin/page.tsx` line 68), reject additionally requires a non-empty
trimmed reason (`handleRejectSubmit` line 81); the edit page loads only for
non-cancelled events (edit page lines 904-912); the request-cancellation
button needs the edit page plus `rsvpCount > 0` (line 1562) and a non-empty
trimmed reason (line 1106); the two cancellation decisions are rendered
only for events of the `cancellationRequests` list (`admin/page.tsx` lines
74-80); the RSVP buttons exist only on the detail page, which fetches the
event with `.eq("status", "approved")` (`events/[id]/page.tsx` line 52). -/
def applyOp : EventState → LifecycleOp → EventState
  | s, LifecycleOp.approve =>
      if s.event.status == EventStatus.pending then
        { s with event := approveUpdate s.event }
      else s
  | s, LifecycleOp.reject reason =>
      if s.event.status == EventStatus.pending && !(jsTrim reason == "") then
        { s with event := rejectUpdate (jsTrim reason) s.event }
      else s
  | s, LifecycleOp.edit f =>
      if editableEvent s.event then
        { s with event := (editSubmit s.event (goingCount s.rsvps s.event.id) f).2 }
      else s
  | s, LifecycleOp.requestCancel reason now =>
      if editableEvent s.event && decide (0 < activeRsvpTotal s)
          && !(jsTrim reason == "") then
        { s with event := requestCancellationUpdate (jsTrim reason) now s.event }
      else s
  | s, LifecycleOp.approveCancel now =>
      if cancellationRequestGuard s.event then
        { s with event := approveCancellationUpdate now s.event }
      else s
  | s, LifecycleOp.rejectCancel =>
      if cancellationRequestGuard s.event then
        { s with event := rejectCancellationUpdate s.event }
      else s
  | s, LifecycleOp.rsvp u t =>
      if s.event.status == EventStatus.approved then
        { s with rsvps := (handleRSVP s.rsvps (some u) s.event.id s.event.capacity t).2 }
      else s

theorem applyOp_approve (s : EventState) :
    applyOp s LifecycleOp.approve =
      if s.event.status == EventStatus.pending then
        { s with event := approveUpdate s.event }
      else s := rfl

theorem applyOp_reject (s : EventState) (reason : String) :
    applyOp s (LifecycleOp.reject reason) =
      if s.event.status == EventStatus.pending && !(jsTrim reason == "") then
        { s with event := rejectUpdate (jsTrim reason) s.event }
      else s := rfl

theorem applyOp_edit (s : EventState) (f : EditForm) :
    applyOp s (LifecycleOp.edit f) =
      if editableEvent s.event then
        { s with event := (editSubmit s.event (goingCount s.rsvps s.event.id) f).2 }
      else s := rfl

theorem applyOp_requestCancel (s : EventState) (reason : String) (now : Nat) :
    applyOp s (LifecycleOp.requestCancel reason now) =
      if editableEvent s.event && decide (0 < activeRsvpTotal s)
          && !(jsTrim reason == "") then
        { s with event := requestCancellationUpdate (jsTrim reason) now s.event }
      else s := rfl

theorem applyOp_approveCancel (s : EventState) (now : Nat) :
    applyOp s (LifecycleOp.approveCancel now) =
      if cancellationRequestGuard s.event then
        { s with event := approveCancellationUpdate now s.event }
      else s := rfl

theorem applyOp_rejectCancel (s : EventState) :
    applyOp s LifecycleOp.rejectCancel =
      if cancellationRequestGuard s.event then
        { s with event := rejectCancellationUpdate s.event }
      else s := rfl

theorem applyOp_rsvp (s : EventState) (u : Nat) (t : RsvpType) :
    applyOp s (LifecycleOp.rsvp u t) =
      if s.event.status == EventStatus.approved then
        { s with rsvps := (handleRSVP s.rsvps (some u) s.event.id s.event.capacity t).2 }
      else s := rfl

/-- Reachability invariant of the lifecycle: a cancelled status implies an
admin-approved cancellation; a pending cancellation request and any active
RSVP exist only once the event was approved. -/
def lifecycleInv (s : EventState) : Prop :=
  (s.event.status = EventStatus.cancelled →
      s.event.cancellation_approved_by_admin = true) ∧
  (s.event.cancellation_requested = true →
      s.event.status = EventStatus.approved ∨ s.event.status = EventStatus.cancelled) ∧
  (0 < activeRsvpTotal s →
      s.event.status = EventStatus.approved ∨ s.event.status = EventStatus.cancelled)

/-- The transition graph of the spec: stay in place, pending → approved,
pending → rejected, or approved → cancelled. -/
def statusStep (a b : EventStatus) : Prop :=
  b = a ∨
    (a = EventStatus.pending ∧ (b = EventStatus.approved ∨ b = EventStatus.rejected)) ∨
    (a = EventStatus.approved ∧ b = EventStatus.cancelled)

/-- The sequence of statuses an event passes through under a sequence of
operations (starting status included). -/
def statusTrace (s : EventState) : List LifecycleOp → List EventStatus
  | [] => [s.event.status]
  | op :: ops => s.event.status :: statusTrace (applyOp s op) ops

/-- The edit update never touches id, status or the cancellation flags
(`updateData`, edit page lines 1062-1075, has no such columns), and the
rejecting branches return the event unchanged. -/
theorem editSubmit_frame (e : Event) (g : Nat) (f : EditForm) :
    (editSubmit e g f).2.id = e.id ∧ (editSubmit e g f).2.status = e.status ∧
      (editSubmit e g f).2.cancellation_requested = e.cancellation_requested ∧
      (editSubmit e g f).2.cancellation_approved_by_admin
        = e.cancellation_approved_by_admin := by
  unfold editSubmit
  split
  · exact ⟨rfl, rfl, rfl, rfl⟩
  · split
    · exact ⟨rfl, rfl, rfl, rfl⟩
    · split
      · exact ⟨rfl, rfl, rfl, rfl⟩
      · exact ⟨rfl, rfl, rfl, rfl⟩

theorem applyOp_step (s : EventState) (op : LifecycleOp) (hinv : lifecycleInv s) :
    lifecycleInv (applyOp s op) ∧
      statusStep s.event.status (applyOp s op).event.status := by
  obtain ⟨h1, h2, h3⟩ := hinv
  cases op with
  | approve =>
    by_cases hp : (s.event.status == EventStatus.pending) = true
    · have hps : s.event.status = EventStatus.pending := by simpa using hp
      rw [applyOp_approve, if_pos hp]
      refine ⟨⟨?_, ?_, ?_⟩, ?_⟩
      · intro h
        simp [approveUpdate] at h
      · intro _
        exact Or.inl rfl
      · intro _
        exact Or.inl rfl
      · exact Or.inr (Or.inl ⟨hps, Or.inl rfl⟩)
    · rw [applyOp_approve, if_neg hp]
      exact ⟨⟨h1, h2, h3⟩, Or.inl rfl⟩
  | reject reason =>
    by_cases hp : (s.event.status == EventStatus.pending && !(jsTrim reason == "")) = true
    · have hps : s.event.status = EventStatus.pending := by
        have hand := (Bool.and_eq_true _ _).mp hp
        simpa using hand.1
      rw [applyOp_reject, if_pos hp]
      refine ⟨⟨?_, ?_, ?_⟩, ?_⟩
      · intro h
        simp [rejectUpdate] at h
      · intro hreq
        rcases h2 hreq with h | h <;> rw [hps] at h <;> simp at h
      · intro htot
        rcases h3 htot with h | h <;> rw [hps] at h <;> simp at h
      · exact Or.inr (Or.inl ⟨hps, Or.inr rfl⟩)
    · rw [applyOp_reject, if_neg hp]
      exact ⟨⟨h1, h2, h3⟩, Or.inl rfl⟩
  | edit f =>
    by_cases hp : editableEvent s.event = true
    · rw [applyOp_edit, if_pos hp]
      obtain ⟨hid, hstat, hreq, hadm⟩ :=
        editSubmit_frame s.event (goingCount s.rsvps s.event.id) f
      refine ⟨⟨?_, ?_, ?_⟩, ?_⟩
      · show (editSubmit s.event (goingCount s.rsvps s.event.id) f).2.status
            = EventStatus.cancelled →
          (editSubmit s.event (goingCount s.rsvps s.event.id) f).2.cancellation_approved_by_admin
            = true
        intro h
        rw [hstat] at h
        rw [hadm]
        exact h1 h
      · show (editSubmit s.event (goingCount s.rsvps s.event.id) f).2.cancellation_requested
            = true →
          (editSubmit s.event (goingCount s.rsvps s.event.id) f).2.status
              = EventStatus.approved ∨
            (editSubmit s.event (goingCount s.rsvps s.event.id) f).2.status
              = EventStatus.cancelled
        intro h
        rw [hreq] at h
        rw [hstat]
        exact h2 h
      · show 0 < interestedCount s.rsvps (editSubmit s.event (goingCount s.rsvps s.event.id) f).2.id
              + goingCount s.rsvps (editSubmit s.event (goingCount s.rsvps s.event.id) f).2.id →
          (editSubmit s.event (goingCount s.rsvps s.event.id) f).2.status
              = EventStatus.approved ∨
            (editSubmit s.event (goingCount s.rsvps s.event.id) f).2.status
              = EventStatus.cancelled
        intro h
        rw [hid] at h
        rw [hstat]
        exact h3 h
      · show statusStep s.event.status
          (editSubmit s.event (goingCount s.rsvps s.event.id) f).2.status
        exact Or.inl hstat
    · rw [applyOp_edit, if_neg hp]
      exact ⟨⟨h1, h2, h3⟩, Or.inl rfl⟩
  | requestCancel reason now =>
    by_cases hp : (editableEvent s.event && decide (0 < activeRsvpTotal s)
        && !(jsTrim reason == "")) = true
    · have hand := (Bool.and_eq_true _ _).mp hp
      have hand2 := (Bool.and_eq_true _ _).mp hand.1
      have hed : editableEvent s.event = true := hand2.1
      have htot : 0 < activeRsvpTotal s := of_decide_eq_true hand2.2
      have hbool : (s.event.status == EventStatus.cancelled
          || s.event.cancellation_approved_by_admin) = false := by
        have hnot : (!(s.event.status == EventStatus.cancelled
            || s.event.cancellation_approved_by_admin)) = true := hed
        simpa using hnot
      rcases Bool.or_eq_false_iff.mp hbool with ⟨hsc, _⟩
      have hstat : s.event.status = EventStatus.approved := by
        rcases h3 htot with h | h
        · exact h
        · rw [h] at hsc
          simp at hsc
      rw [applyOp_requestCancel, if_pos hp]
      refine ⟨⟨?_, ?_, ?_⟩, ?_⟩
      · intro h
        exact h1 h
      · intro _
        exact Or.inl hstat
      · intro _
        exact Or.inl hstat
      · exact Or.inl rfl
    · rw [applyOp_requestCancel, if_neg hp]
      exact ⟨⟨h1, h2, h3⟩, Or.inl rfl⟩
  | approveCancel now =>
    by_cases hp : cancellationRequestGuard s.event = true
    · have hand := (Bool.and_eq_true _ _).mp hp
      have hreq : s.event.cancellation_requested = true := hand.1
      have hadm : s.event.cancellation_approved_by_admin = false := by
        have := hand.2
        simpa using this
      have hstat : s.event.status = EventStatus.approved := by
        rcases h2 hreq with h | h
        · exact h
        · exact absurd (h1 h) (by rw [hadm]; exact Bool.false_ne_true)
      rw [applyOp_approveCancel, if_pos hp]
      refine ⟨⟨?_, ?_, ?_⟩, ?_⟩
      · intro _
        exact rfl
      · intro _
        exact Or.inr rfl
      · intro _
        exact Or.inr rfl
      · exact Or.inr (Or.inr ⟨hstat, rfl⟩)
    · rw [applyOp_approveCancel, if_neg hp]
      exact ⟨⟨h1, h2, h3⟩, Or.inl rfl⟩
  | rejectCancel =>
    by_cases hp : cancellationRequestGuard s.event = true
    · rw [applyOp_rejectCancel, if_pos hp]
      refine ⟨⟨?_, ?_, ?_⟩, ?_⟩
      · intro h
        exact h1 h
      · intro h
        simp [rejectCancellationUpdate] at h
      · intro h
        exact h3 h
      · exact Or.inl rfl
    · rw [applyOp_rejectCancel, if_neg hp]
      exact ⟨⟨h1, h2, h3⟩, Or.inl rfl⟩
  | rsvp u t =>
    by_cases hp : (s.event.status == EventStatus.approved) = true
    · have hstat : s.event.status = EventStatus.approved := by simpa using hp
      rw [applyOp_rsvp, if_pos hp]
      refine ⟨⟨?_, ?_, ?_⟩, ?_⟩
      · intro h
        exact h1 h
      · intro h
        exact h2 h
      · intro _
        exact Or.inl hstat
      · exact Or.inl rfl
    · rw [applyOp_rsvp, if_neg hp]
      exact ⟨⟨h1, h2, h3⟩, Or.inl rfl⟩

theorem statusTrace_head (s : EventState) (ops : List LifecycleOp) :
    (statusTrace s ops).head? = some s.event.status := by
  cases ops <;> rfl

theorem chain_of_inv (ops : List LifecycleOp) :
    ∀ s : EventState, lifecycleInv s →
      List.Chain' statusStep (statusTrace s ops) := by
  induction ops with
  | nil =>
    intro s _
    exact List.chain'_singleton _
  | cons op ops ih =>
    intro s hinv
    obtain ⟨hinv2, hstep⟩ := applyOp_step s op hinv
    show List.Chain' statusStep (s.event.status :: statusTrace (applyOp s op) ops)
    rw [List.chain'_cons']
    refine ⟨?_, ih (applyOp s op) hinv2⟩
    intro b hb
    rw [statusTrace_head] at hb
    rw [Option.mem_def, Option.some.injEq] at hb
    rw [← hb]
    exact hstep

/-- The state right after Submit: the insert payload plus an empty RSVP
table. -/
def initialState (f : EditForm) (vn : String) (vid eid : Nat) : EventState :=
  { event := submitEventData f vn vid eid, rsvps := emptyRsvpDB }

theorem initialState_inv (f : EditForm) (vn : String) (vid eid : Nat) :
    lifecycleInv (initialState f vn vid eid) := by
  refine ⟨?_, ?_, ?_⟩
  · intro h
    simp [initialState, submitEventData] at h
  · intro h
    simp [initialState, submitEventData] at h
  · intro h
    simp [initialState, activeRsvpTotal, interestedCount, goingCount, emptyRsvpDB] at h

/-- C2: along every sequence of the defined operations starting from a
freshly submitted event, the status is always one of the four values and
each consecutive pair of statuses follows the transition graph — stay,
pending → approved, pending → rejected, or approved → cancelled; in
particular no sequence produces rejected → approved or
cancelled → approved. -/
theorem event_status_moves_forward (f : EditForm) (vn : String) (vid eid : Nat)
    (ops : List LifecycleOp) :
    List.Chain' statusStep (statusTrace (initialState f vn vid eid) ops) ∧
      ∀ st ∈ statusTrace (initialState f vn vid eid) ops,
        st = EventStatus.pending ∨ st = EventStatus.approved ∨
          st = EventStatus.rejected ∨ st = EventStatus.cancelled := by
  refine ⟨chain_of_inv ops _ (initialState_inv f vn vid eid), ?_⟩
  intro st _
  cases st
  · exact Or.inl rfl
  · exact Or.inr (Or.inl rfl)
  · exact Or.inr (Or.inr (Or.inl rfl))
  · exact Or.inr (Or.inr (Or.inr rfl))

theorem event_status_moves_forward_witness :
    EventStatus.pending = EventStatus.pending ∨
      EventStatus.pending = EventStatus.approved ∨
      EventStatus.pending = EventStatus.rejected ∨
      EventStatus.pending = EventStatus.cancelled :=
  (event_status_moves_forward baseForm "Blue Note" 4 2 []).2 EventStatus.pending
    (List.mem_singleton.mpr rfl)

end Eventa
